import Mathlib

/-!
Verification of the query-building core of `infi.clickhouse_orm`
(`src/infi/clickhouse_orm/query.py`): filtering operators, the `Q`
condition-tree algebra, and the immutable `QuerySet` / `AggregateQuerySet`
builders.  Python classes are embedded as Lean structures / inductives,
methods as pure functions; `assert` / `raise` paths are embedded with
`Except String`.  External collaborators (the model's field providers and
the database handle, spec §6) are embedded as function-valued records.
-/

namespace ClickhouseOrm

/-- A Python value as it appears in filter conditions: `None`, strings,
integers, pairs (tuples) and lists.  This is the payload type for
field/operator/value condition leaves. -/
inductive PyVal where
  | none
  | str (s : String)
  | int (n : Int)
  | pair (a b : PyVal)
  | listv (l : List PyVal)

/-- `v is None` (Python identity test against `None`). -/
def PyVal.isNone : PyVal → Bool
  | .none => true
  | _ => false

/-- Python `str(v)`.  Only its emptiness is ever consulted by the code under
verification (in `BetweenOperator`'s guard), so the rendering of compound
values is abbreviated; the load-bearing case is `str(None) = "None"`. -/
def pyStr : PyVal → String
  | .none => "None"
  | .str s => s
  | .int n => toString n
  | .pair a b => "(" ++ pyStr a ++ ", " ++ pyStr b ++ ")"
  | .listv _ => "[...]"

/-- Storage-engine descriptor of a model.  Modelled from the spec (§6, §4.4):
`final()` is only legal on an engine that collapses rows on read
(`CollapsingMergeTree`); the engine classes themselves live outside the
verified file. -/
inductive Engine where
  | collapsingMergeTree
  | other

/-- The model class collaborator (spec §6): a table name, the ordered field
names, the storage engine, and per-field value conversion
`to_db_string(to_python(v, utc))` — `conv` with quoting (the default) and
`conv_unquoted` for `quote=False` (used inside LIKE patterns). -/
structure ModelCls where
  table_name : String
  field_names : List String
  engine : Engine
  conv : String → PyVal → String
  conv_unquoted : String → PyVal → String

/-- Python truthiness of Python's `value0` / `value1` locals in
`BetweenOperator.to_sql`: an absent bound (`None`) is falsy, a string bound
is truthy iff non-empty. -/
def pyTruthyOpt : Option String → Bool
  | some s => s.length != 0
  | Option.none => false

/-- The guard `value[i] is not None or len(str(value[i])) > 0` from
`BetweenOperator.to_sql`, exactly as written in the source (with `or`). -/
def pyBetweenGuard (v : PyVal) : Bool :=
  !v.isNone || (pyStr v).length != 0

/-- Python `value[0]`, `value[1]` on the between operand (a pair or list of
at least two elements; anything else raises in Python and is not modelled). -/
def pyIndex01 : PyVal → Option (PyVal × PyVal)
  | .pair a b => some (a, b)
  | .listv (a :: b :: _) => some (a, b)
  | _ => Option.none

/-- `BetweenOperator.to_sql`, with the field's conversion function applied.
Returns `none` where the Python function falls through all three branches
and implicitly returns `None` (the degenerate case flagged open in spec §9). -/
def betweenSql (conv : PyVal → String) (field_name : String) (value : PyVal) :
    Option String :=
  match pyIndex01 value with
  | Option.none => Option.none
  | some (v0, v1) =>
    let value0 : Option String :=
      if pyBetweenGuard v0 then some (conv v0) else Option.none
    let value1 : Option String :=
      if pyBetweenGuard v1 then some (conv v1) else Option.none
    if pyTruthyOpt value0 && pyTruthyOpt value1 then
      some (field_name ++ " BETWEEN " ++ value0.getD "" ++ " AND " ++ value1.getD "")
    else if pyTruthyOpt value0 && !pyTruthyOpt value1 then
      some (field_name ++ " >= " ++ value0.getD "")
    else if pyTruthyOpt value1 && !pyTruthyOpt value0 then
      some (field_name ++ " <= " ++ value1.getD "")
    else Option.none

/-- `', '.join(...)` from `utils.comma_join`.  Modelled from the spec:
`utils.py` is outside the verified file; spec §6 shows comma-space joins. -/
def commaJoin (items : List String) : String :=
  String.intercalate ", " items

/-- A filtering operator (`Operator` and its subclasses in the source).
`SimpleOperator` carries its SQL operator text and optional null form;
`NotOperator` wraps a base operator; `LikeOperator` carries its pattern and
case-sensitivity. -/
inductive Operator where
  | simple (sql_operator : String) (sql_for_null : Option String)
  | inOp
  | like (pattern : String) (case_sensitive : Bool)
  | iexact
  | notOp (base : Operator)
  | between
deriving DecidableEq

/-- `Operator.to_sql(model_cls, field_name, value)` for each operator class.
The `InOperator` sub-query case (a `QuerySet` operand) is not representable
in `PyVal` and is not needed by any property below; non-iterable `IN`
operands (which raise in Python) fall back to the converted scalar. -/
def Operator.to_sql (m : ModelCls) (field_name : String) (value : PyVal) :
    Operator → String
  | .simple op null_sql =>
    let v := m.conv field_name value
    match null_sql with
    | some ns => if v = "\\N" then field_name ++ " " ++ ns
                 else field_name ++ " " ++ op ++ " " ++ v
    | Option.none => field_name ++ " " ++ op ++ " " ++ v
  | .inOp =>
    let contents := match value with
      | .str s => s
      | .listv l => commaJoin (l.map (m.conv field_name))
      | .pair a b => commaJoin [m.conv field_name a, m.conv field_name b]
      | v => m.conv field_name v
    field_name ++ " IN (" ++ contents ++ ")"
  | .like pat cs =>
    let v := m.conv_unquoted field_name value
    let escaped := ((v.replace "\\" "\\\\").replace "%" "\\\\%").replace "_" "\\\\_"
    let p := pat.replace "\x7b\x7d" escaped
    if cs then field_name ++ " LIKE '" ++ p ++ "'"
    else "lowerUTF8(" ++ field_name ++ ") LIKE lowerUTF8('" ++ p ++ "')"
  | .iexact =>
    "lowerUTF8(" ++ field_name ++ ") = lowerUTF8(" ++ m.conv field_name value ++ ")"
  | .notOp base =>
    "NOT (" ++ base.to_sql m field_name value ++ ")"
  | .between =>
    -- Python implicitly returns None when all branches fall through (§9);
    -- at this call site that degenerate case is embedded as "".
    (betweenSql (m.conv field_name) field_name value).getD ""

/-- The built-in `eq` operator (`SimpleOperator('=', 'IS NULL')`). -/
def eq_operator : Operator := .simple "=" (some "IS NULL")

/-- The module-level `_operators` registry after the builtin
`register_operator` calls have run. -/
def _operators : String → Option Operator := fun name =>
  if name = "eq" then some eq_operator
  else if name = "ne" then some (.simple "!=" (some "IS NOT NULL"))
  else if name = "gt" then some (.simple ">" Option.none)
  else if name = "gte" then some (.simple ">=" Option.none)
  else if name = "lt" then some (.simple "<" Option.none)
  else if name = "lte" then some (.simple "<=" Option.none)
  else if name = "between" then some .between
  else if name = "in" then some .inOp
  else if name = "not_in" then some (.notOp .inOp)
  else if name = "contains" then some (.like "%\x7b\x7d%" true)
  else if name = "startswith" then some (.like "\x7b\x7d%" true)
  else if name = "endswith" then some (.like "%\x7b\x7d" true)
  else if name = "icontains" then some (.like "%\x7b\x7d%" false)
  else if name = "istartswith" then some (.like "\x7b\x7d%" false)
  else if name = "iendswith" then some (.like "%\x7b\x7d" false)
  else if name = "iexact" then some .iexact
  else Option.none

/-- A condition leaf: Field + Operator + Value. -/
structure FOV where
  _field_name : String
  _operator : Operator
  _value : PyVal

/-- `FOV.__init__`: resolve the operator name; if unknown, the split was
spurious — glue the name back onto the field with `__` and default to `eq`. -/
def FOV.init (field_name : String) (operator : String) (value : PyVal) : FOV :=
  match _operators operator with
  | some op => ⟨field_name, op, value⟩
  | Option.none => ⟨field_name ++ "__" ++ operator, eq_operator, value⟩

/-- `FOV.to_sql(model_cls)`. -/
def FOV.to_sql (m : ModelCls) (fov : FOV) : String :=
  fov._operator.to_sql m fov._field_name fov._value

/-- `FOV.__deepcopy__`: a fresh leaf with an independently copied value
(value copying is the identity on pure `PyVal` data). -/
def FOV.deepcopy (fov : FOV) : FOV :=
  ⟨fov._field_name, fov._operator, fov._value⟩

/-- Python `key.rsplit('__', 1)` restricted to the `'__' in key` case:
split at the RIGHTMOST occurrence of `"__"`, returning the characters
before and after it; `none` when `"__"` does not occur. -/
def rsplitDunder : List Char → Option (List Char × List Char)
  | [] => Option.none
  | c :: rest =>
    match rsplitDunder rest with
    | some (f, op) => some (c :: f, op)
    | Option.none =>
      match rest with
      | c2 :: tail => if c = '_' ∧ c2 = '_' then some ([], tail) else Option.none
      | [] => Option.none

/-- The condition tree: leaves, child trees, a negation flag, and the
AND/OR mode (stored, as in Python, as the strings `'AND'` / `'OR'`). -/
inductive Q where
  | mk (_fovs : List FOV) (_children : List Q) (_negate : Bool) (_mode : String)

def Q.AND_MODE : String := "AND"

def Q.OR_MODE : String := "OR"

def Q._fovs : Q → List FOV
  | .mk f _ _ _ => f

def Q._children : Q → List Q
  | .mk _ c _ _ => c

def Q._negate : Q → Bool
  | .mk _ _ n _ => n

def Q._mode : Q → String
  | .mk _ _ _ m => m

/-- `Q._build_fov`: split the keyword on its last `__` if present. -/
def Q._build_fov (key : String) (value : PyVal) : FOV :=
  match rsplitDunder key.data with
  | some (f, op) => FOV.init (String.mk f) (String.mk op) value
  | Option.none => FOV.init key "eq" value

/-- `Q.__init__(**filter_fields)`: one leaf per keyword argument, no
children, no negation, AND mode. -/
def Q.init (filter_fields : List (String × PyVal)) : Q :=
  .mk (filter_fields.map fun kv => Q._build_fov kv.1 kv.2) [] false Q.AND_MODE

/-- `Q.is_empty`: no leaves and no children. -/
def Q.is_empty (q : Q) : Bool :=
  q._fovs.isEmpty && q._children.isEmpty

/-- `Q.__bool__` / truthiness: non-empty. -/
def Q.toBool (q : Q) : Bool := !q.is_empty

mutual

/-- `Q.__deepcopy__`: rebuild the node, deep-copying every leaf and child. -/
def Q.deepcopy : Q → Q
  | .mk fovs children negate mode =>
    .mk (fovs.map FOV.deepcopy) (Q.deepcopyChildren children) negate mode

def Q.deepcopyChildren : List Q → List Q
  | [] => []
  | c :: cs => Q.deepcopy c :: Q.deepcopyChildren cs

end

mutual

/-- `Q.to_sql(model_cls)`: render leaves, then non-empty children; `'1'`
when nothing remains; a single condition unparenthesized; otherwise each
condition parenthesized and joined with the mode; finally the `NOT (...)`
wrap if negated. -/
def Q.to_sql (m : ModelCls) : Q → String
  | .mk fovs children negate mode =>
    let condition_sql :=
      fovs.map (FOV.to_sql m) ++ Q.childrenSql m children
    let sql :=
      match condition_sql with
      | [] => "1"
      | [c] => c
      | cs => "(" ++ String.intercalate (") " ++ mode ++ " (") cs ++ ")"
    if negate then "NOT (" ++ sql ++ ")" else sql

/-- The list comprehension `[child.to_sql(model_cls) for child in
self._children if child]`: falsy (empty) children are skipped. -/
def Q.childrenSql (m : ModelCls) : List Q → List String
  | [] => []
  | c :: cs =>
    if c.toBool then c.to_sql m :: Q.childrenSql m cs
    else Q.childrenSql m cs

end

/-- `Q._construct_from(l_child, r_child, mode)`: flatten into a deep copy
of whichever operand already has the requested mode; otherwise a fresh
parent referencing the two operands. -/
def Q._construct_from (l_child r_child : Q) (mode : String) : Q :=
  if mode = l_child._mode then
    let q := l_child.deepcopy
    .mk q._fovs (q._children ++ [r_child.deepcopy]) q._negate q._mode
  else if mode = r_child._mode then
    let q := r_child.deepcopy
    .mk q._fovs (q._children ++ [l_child.deepcopy]) q._negate q._mode
  else
    .mk [] [l_child, r_child] false mode

/-- `Q.__or__`. -/
def Q.or (self other : Q) : Q := Q._construct_from self other Q.OR_MODE

/-- `Q.__and__`. -/
def Q.and (self other : Q) : Q := Q._construct_from self other Q.AND_MODE

/-- `Q.__invert__`: a shallow copy with the negation flag set. -/
def Q.invert : Q → Q
  | .mk fovs children _ mode => .mk fovs children true mode

/-- The external data source (spec §6), embedded as a record of pure
functions over a row type `Rec`: `select(sql, model)` yields decoded rows
(the model argument is subsumed by `Rec`), `count(model, conditions)`
counts rows matching a bare condition string, `raw(sql)` returns scalar
text (possibly empty). -/
structure Database (Rec : Type) where
  select : String → List Rec
  count : String → Int
  raw : String → String

/-- Python `int(text)` on a decimal scalar, optionally signed.  Modelled
from the spec (§6): the data source's `raw` call returns scalar text; a
non-numeric response raises in Python and is not modelled. -/
def pyParseInt (s : String) : Int :=
  match s.data with
  | '-' :: cs => -(cs.foldl (fun acc c => acc * 10 + (c.toNat - 48)) 0 : Nat)
  | cs => (cs.foldl (fun acc c => acc * 10 + (c.toNat - 48)) 0 : Nat)

/-- `int(raw) if raw else 0` applied to the text of a raw scalar response. -/
def pyIntOfRaw (s : String) : Int :=
  if s = "" then 0 else pyParseInt s

/-- The query builder.  Field order and names follow `QuerySet.__init__`. -/
structure QuerySet (Rec : Type) where
  _model_cls : ModelCls
  _database : Database Rec
  _order_by : List String
  _where_q : Q
  _prewhere_q : Q
  _grouping_fields : List String
  _grouping_with_totals : Bool
  _fields : List String
  _limits : Option (Int × Int)
  _distinct : Bool
  _final : Bool

/-- `QuerySet.__init__(model_cls, database)`. -/
def QuerySet.init (model_cls : ModelCls) (database : Database Rec) : QuerySet Rec :=
  ⟨model_cls, database, [], Q.init [], Q.init [], [], false,
   model_cls.field_names, Option.none, false, false⟩

/-- `QuerySet.select_fields_as_sql`. -/
def QuerySet.select_fields_as_sql (qs : QuerySet Rec) : String :=
  if qs._fields.isEmpty then "*"
  else commaJoin (qs._fields.map fun f => "`" ++ f ++ "`")

/-- One element of the `ORDER BY` clause: a leading `-` becomes a
trailing ` DESC`. -/
def orderByItem (field : String) : String :=
  match field.data with
  | '-' :: rest => String.mk rest ++ " DESC"
  | _ => field

/-- `QuerySet.order_by_as_sql`. -/
def QuerySet.order_by_as_sql (qs : QuerySet Rec) : String :=
  commaJoin (qs._order_by.map orderByItem)

/-- `QuerySet.conditions_as_sql(q_object)`. -/
def QuerySet.conditions_as_sql (qs : QuerySet Rec) (q_object : Q) : String :=
  q_object.to_sql qs._model_cls

/-- The body of `QuerySet.as_sql`, parameterized by the (dynamically
dispatched) `select_fields_as_sql` result so that `AggregateQuerySet` can
reuse it with its overridden projection. -/
def asSqlCore (select_fields : String) (qs : QuerySet Rec) : String :=
  let distinct := if qs._distinct then "DISTINCT " else ""
  let final := if qs._final then " FINAL" else ""
  let sql := "SELECT " ++ distinct ++ select_fields ++ "\nFROM `"
      ++ qs._model_cls.table_name ++ "`" ++ final
  let sql := if qs._prewhere_q.toBool then
      sql ++ "\nPREWHERE " ++ qs.conditions_as_sql qs._prewhere_q else sql
  let sql := if qs._where_q.toBool then
      sql ++ "\nWHERE " ++ qs.conditions_as_sql qs._where_q else sql
  let sql := if !qs._grouping_fields.isEmpty then
      let g := sql ++ "\nGROUP BY "
          ++ commaJoin (qs._grouping_fields.map fun f => "`" ++ f ++ "`")
      if qs._grouping_with_totals then g ++ " WITH TOTALS" else g
    else sql
  let sql := if !qs._order_by.isEmpty then
      sql ++ "\nORDER BY " ++ qs.order_by_as_sql else sql
  match qs._limits with
  | some (o, c) => sql ++ "\nLIMIT " ++ toString o ++ ", " ++ toString c
  | Option.none => sql

/-- `QuerySet.as_sql`. -/
def QuerySet.as_sql (qs : QuerySet Rec) : String :=
  asSqlCore qs.select_fields_as_sql qs

/-- `QuerySet.__iter__`: the decoded rows of the rendered statement. -/
def QuerySet.iter (qs : QuerySet Rec) : List Rec :=
  qs._database.select qs.as_sql

/-- `QuerySet.count`: a wrapped `SELECT count() FROM (...)` through `raw`
when DISTINCT or limits are in play, otherwise the data source's direct
count over the combined where/prewhere condition. -/
def QuerySet.count (qs : QuerySet Rec) : Int :=
  if qs._distinct || qs._limits.isSome then
    pyIntOfRaw (qs._database.raw ("SELECT count() FROM (" ++ qs.as_sql ++ ")"))
  else
    qs._database.count (qs.conditions_as_sql (qs._where_q.and qs._prewhere_q))

/-- `QuerySet.__getitem__` with an integer argument: set limits to
`(s, 1)` on a copy and eagerly fetch the single record
(`six.next(iter(qs))`), failing on an empty result. -/
def QuerySet.getitem_index (qs : QuerySet Rec) (s : Int) : Except String Rec :=
  if s < 0 then .error "negative indexes are not supported"
  else
    let qs' := { qs with _limits := some (s, 1) }
    match qs'.iter.head? with
    | some r => .ok r
    | Option.none => .error "StopIteration"

/-- Python `a or b` for an optional integer `a`: both `None` and `0` are
falsy and select the default (this is how `s.start or 0` and
`s.stop or 2**63 - 1` behave in the source). -/
def pyOrInt (v : Option Int) (d : Int) : Int :=
  match v with
  | some x => if x = 0 then d else x
  | Option.none => d

/-- `QuerySet.__getitem__` with a slice argument. -/
def QuerySet.getitem_slice (qs : QuerySet Rec) (start stop step : Option Int) :
    Except String (QuerySet Rec) :=
  if ¬(step = Option.none ∨ step = some 1) then
    .error "step is not supported in slices"
  else
    let start := pyOrInt start 0
    let stop := pyOrInt stop (2 ^ 63 - 1)
    if ¬(start ≥ 0 ∧ stop ≥ 0) then .error "negative indexes are not supported"
    else if ¬(start ≤ stop) then .error "start of slice cannot be smaller than its end"
    else .ok { qs with _limits := some (start, stop - start) }

/-- `QuerySet.order_by(*field_names)`. -/
def QuerySet.order_by (qs : QuerySet Rec) (field_names : List String) : QuerySet Rec :=
  { qs with _order_by := field_names }

/-- `QuerySet.only(*field_names)`. -/
def QuerySet.only (qs : QuerySet Rec) (field_names : List String) : QuerySet Rec :=
  { qs with _fields := field_names }

/-- `QuerySet._filter_or_exclude(*q, **kwargs)`; `reverse` and `prewhere`
are the flags popped from `kwargs`. -/
def QuerySet._filter_or_exclude (qs : QuerySet Rec) (q : List Q)
    (kwargs : List (String × PyVal)) (reverse prewhere : Bool) : QuerySet Rec :=
  let condition := q.foldl Q.and (Q.init [])
  let condition := if kwargs.isEmpty then condition else condition.and (Q.init kwargs)
  let condition := if reverse then condition.invert else condition
  let condition := (if prewhere then qs._prewhere_q else qs._where_q).and condition
  if prewhere then { qs with _prewhere_q := condition }
  else { qs with _where_q := condition }

/-- `QuerySet.filter(*q, **kwargs)` (with the optional `prewhere` flag). -/
def QuerySet.filter (qs : QuerySet Rec) (q : List Q)
    (kwargs : List (String × PyVal)) (prewhere : Bool) : QuerySet Rec :=
  qs._filter_or_exclude q kwargs false prewhere

/-- `QuerySet.exclude(*q, **kwargs)` (with the optional `prewhere` flag). -/
def QuerySet.exclude (qs : QuerySet Rec) (q : List Q)
    (kwargs : List (String × PyVal)) (prewhere : Bool) : QuerySet Rec :=
  qs._filter_or_exclude q kwargs true prewhere

/-- `QuerySet.distinct()`. -/
def QuerySet.distinct (qs : QuerySet Rec) : QuerySet Rec :=
  { qs with _distinct := true }

/-- `QuerySet.final()`: only legal on a `CollapsingMergeTree` engine. -/
def QuerySet.final (qs : QuerySet Rec) : Except String (QuerySet Rec) :=
  match qs._model_cls.engine with
  | .collapsingMergeTree => .ok { qs with _final := true }
  | .other => .error "final() method can be used only with CollapsingMergeTree engine"

/-- The `Page` record returned by `paginate`.  Modelled from the spec:
`Page` is a namedtuple defined in `database.py`, outside the verified file,
with exactly these fields. -/
structure Page (Rec : Type) where
  objects : List Rec
  number_of_objects : Int
  pages_total : Int
  number : Int
  page_size : Int

/-- `int(ceil(count / float(page_size)))` computed exactly over the
integers ( `(count + page_size - 1) / page_size` equals the ceiling for
nonnegative `count` and positive `page_size`); the float rounding of the
source at astronomically large counts is not modelled. -/
def ceilDivInt (count page_size : Int) : Int :=
  (count + page_size - 1) / page_size

/-- `QuerySet.paginate(page_num, page_size)`. -/
def QuerySet.paginate (qs : QuerySet Rec) (page_num page_size : Int) :
    Except String (Page Rec) :=
  let count := qs.count
  let pages_total := ceilDivInt count page_size
  let decide_page : Except String Int :=
    if page_num = -1 then .ok pages_total
    else if page_num < 1 then .error ("Invalid page number: " ++ toString page_num)
    else .ok page_num
  match decide_page with
  | .error e => .error e
  | .ok page_num =>
    let offset := (page_num - 1) * page_size
    match qs.getitem_slice (some offset) (some (offset + page_size)) Option.none with
    | .error e => .error e
    | .ok sliced => .ok ⟨sliced.iter, count, pages_total, page_num, page_size⟩

/-- The aggregation builder: the base builder state plus the calculated
fields mapping. -/
structure AggregateQuerySet (Rec : Type) where
  toQuerySet : QuerySet Rec
  _calculated_fields : List (String × String)

/-- `QuerySet.aggregate(*args, **kwargs)` /
`AggregateQuerySet.__init__(base_qs, grouping_fields, calculated_fields)`:
re-initializes from the model and database, then copies ordering, where,
prewhere, limits and distinct from the base (grouping-with-totals and
final are NOT inherited), with the grouping fields as projection. -/
def QuerySet.aggregate (qs : QuerySet Rec) (args : List String)
    (kwargs : List (String × String)) : Except String (AggregateQuerySet Rec) :=
  if kwargs.isEmpty then .error "No calculated fields specified for aggregation"
  else .ok ⟨{ QuerySet.init qs._model_cls qs._database with
      _fields := args
      _grouping_fields := args
      _order_by := qs._order_by
      _where_q := qs._where_q
      _prewhere_q := qs._prewhere_q
      _limits := qs._limits
      _distinct := qs._distinct }, kwargs⟩

/-- `AggregateQuerySet.select_fields_as_sql`: grouping fields, then
`<expression> AS <name>` for every calculated field. -/
def AggregateQuerySet.select_fields_as_sql (a : AggregateQuerySet Rec) : String :=
  commaJoin (a.toQuerySet._fields
    ++ a._calculated_fields.map fun kv => kv.2 ++ " AS " ++ kv.1)

/-- `as_sql` on an `AggregateQuerySet`: the inherited assembly with the
overridden projection. -/
def AggregateQuerySet.as_sql (a : AggregateQuerySet Rec) : String :=
  asSqlCore a.select_fields_as_sql a.toQuerySet

/-- `AggregateQuerySet.group_by(*args)`: every name must be a grouping
field or a calculated field. -/
def AggregateQuerySet.group_by (a : AggregateQuerySet Rec) (args : List String) :
    Except String (AggregateQuerySet Rec) :=
  match args.find? (fun name =>
      !(a.toQuerySet._fields.contains name
        || (a._calculated_fields.map Prod.fst).contains name)) with
  | some name =>
    .error ("Cannot group by `" ++ name ++ "` since it is not included in the query")
  | Option.none =>
    .ok { a with toQuerySet := { a.toQuerySet with _grouping_fields := args } }

/-- `AggregateQuerySet.with_totals()`. -/
def AggregateQuerySet.with_totals (a : AggregateQuerySet Rec) : AggregateQuerySet Rec :=
  { a with toQuerySet := { a.toQuerySet with _grouping_with_totals := true } }

/-- `AggregateQuerySet.count()`: always the wrapped sub-query form. -/
def AggregateQuerySet.count (a : AggregateQuerySet Rec) : Int :=
  pyIntOfRaw (a.toQuerySet._database.raw ("SELECT count() FROM (" ++ a.as_sql ++ ")"))

/-! ### Object-identity instrumentation of the condition tree

Python's `deepcopy` discipline in `Q._construct_from` is about heap
sharing, which pure values cannot observe.  `Qi` is the same tree shape
with an object identity (`oid`) on every node and leaf; fresh identities
are drawn from a counter exactly where Python allocates a new object, so
"shares no structure" becomes "has disjoint identity sets". -/

/-- A condition leaf carrying its Python object identity. -/
structure FOVi where
  oid : Nat
  _field_name : String
  _operator : Operator
  _value : PyVal

/-- `FOV.__deepcopy__` instrumented: `copy(self)` allocates a new leaf
object (fresh identity); the value copy is pure. -/
def FOVi.deepcopy (f : FOVi) (ctr : Nat) : FOVi × Nat :=
  (⟨ctr, f._field_name, f._operator, f._value⟩, ctr + 1)

/-- Forget the instrumentation of a leaf. -/
def FOVi.erase (f : FOVi) : FOV :=
  ⟨f._field_name, f._operator, f._value⟩

/-- The condition tree with object identities on every node. -/
inductive Qi where
  | mk (oid : Nat) (_fovs : List FOVi) (_children : List Qi) (_negate : Bool)
      (_mode : String)

def Qi.oid : Qi → Nat
  | .mk i _ _ _ _ => i

def Qi._fovs : Qi → List FOVi
  | .mk _ f _ _ _ => f

def Qi._children : Qi → List Qi
  | .mk _ _ c _ _ => c

def Qi._negate : Qi → Bool
  | .mk _ _ _ n _ => n

def Qi._mode : Qi → String
  | .mk _ _ _ _ m => m

/-- Deep-copy a leaf list, threading the identity counter. -/
def Qi.deepcopyFovs : List FOVi → Nat → List FOVi × Nat
  | [], c => ([], c)
  | f :: fs, c =>
    let r1 := FOVi.deepcopy f c
    let r2 := Qi.deepcopyFovs fs r1.2
    (r1.1 :: r2.1, r2.2)

mutual

/-- `Q.__deepcopy__` instrumented: a fresh node whose leaves and children
are recursively fresh copies. -/
def Qi.deepcopy : Qi → Nat → Qi × Nat
  | .mk _ fovs children negate mode, c =>
    let r1 := Qi.deepcopyFovs fovs c
    let r2 := Qi.deepcopyChildren children r1.2
    (.mk r2.2 r1.1 r2.1 negate mode, r2.2 + 1)

def Qi.deepcopyChildren : List Qi → Nat → List Qi × Nat
  | [], c => ([], c)
  | q :: qs, c =>
    let r1 := Qi.deepcopy q c
    let r2 := Qi.deepcopyChildren qs r1.2
    (r1.1 :: r2.1, r2.2)

end

mutual

/-- All object identities occurring in a tree. -/
def Qi.ids : Qi → List Nat
  | .mk oid fovs children _ _ =>
    oid :: (fovs.map FOVi.oid ++ Qi.idsChildren children)

def Qi.idsChildren : List Qi → List Nat
  | [] => []
  | q :: qs => Qi.ids q ++ Qi.idsChildren qs

end

mutual

/-- Forget the instrumentation of a tree. -/
def Qi.erase : Qi → Q
  | .mk _ fovs children negate mode =>
    .mk (fovs.map FOVi.erase) (Qi.eraseChildren children) negate mode

def Qi.eraseChildren : List Qi → List Q
  | [] => []
  | q :: qs => Qi.erase q :: Qi.eraseChildren qs

end

/-- `Q._construct_from` instrumented: the flatten branches deep-copy both
operands; the fresh-parent branch allocates one new node whose children
are the operand objects themselves. -/
def Qi._construct_from (l_child r_child : Qi) (mode : String) (ctr : Nat) :
    Qi × Nat :=
  if mode = l_child._mode then
    let r1 := Qi.deepcopy l_child ctr
    let r2 := Qi.deepcopy r_child r1.2
    (.mk r1.1.oid r1.1._fovs (r1.1._children ++ [r2.1]) r1.1._negate r1.1._mode, r2.2)
  else if mode = r_child._mode then
    let r1 := Qi.deepcopy r_child ctr
    let r2 := Qi.deepcopy l_child r1.2
    (.mk r1.1.oid r1.1._fovs (r1.1._children ++ [r2.1]) r1.1._negate r1.1._mode, r2.2)
  else
    (.mk ctr [] [l_child, r_child] false mode, ctr + 1)

/-! ### Concrete fixtures

A sample field provider and model used to evaluate renderings on concrete
inputs.  Modelled from the spec (§6): string fields quote their value,
integer fields render bare digits, and a missing value converts to the
null literal `\N` (§3's `IS NULL` special-casing). -/

/-- Sample `to_db_string(to_python(v))` with quoting. -/
def sampleConv : String → PyVal → String := fun _ v =>
  match v with
  | .str s => "'" ++ s ++ "'"
  | .int n => toString n
  | .none => "\\N"
  | _ => ""

/-- Sample `to_db_string(to_python(v), quote=False)`. -/
def sampleConvRaw : String → PyVal → String := fun _ v =>
  match v with
  | .str s => s
  | .int n => toString n
  | _ => ""

/-- A sample model over fields `date` and `x` on a non-collapsing engine. -/
def sampleModel : ModelCls :=
  ⟨"event", ["date", "x"], .other, sampleConv, sampleConvRaw⟩

/-- The sample model on a `CollapsingMergeTree` engine. -/
def sampleCollapsingModel : ModelCls :=
  { sampleModel with engine := .collapsingMergeTree }

/-- A sample data source: one row, direct count 3, raw scalar `"5"`. -/
def sampleDb : Database Nat := ⟨fun _ => [7], fun _ => 3, fun _ => "5"⟩

/-- A data source with no rows and count 0. -/
def emptyDb : Database Nat := ⟨fun _ => [], fun _ => 0, fun _ => ""⟩

def sampleQs : QuerySet Nat := QuerySet.init sampleModel sampleDb

def sampleQsCollapsing : QuerySet Nat := QuerySet.init sampleCollapsingModel sampleDb

def emptyQs : QuerySet Nat := QuerySet.init sampleModel emptyDb

/-- A sample aggregation builder grouping on `date` with one calculated
field. -/
def sampleAqs : AggregateQuerySet Nat :=
  ⟨{ sampleQs with _fields := ["date"], _grouping_fields := ["date"] },
   [("cnt", "count()")]⟩

/-- An AND-mode tree with one leaf (`Q(a=1)`). -/
def qAnd1 : Q := Q.init [("a", .int 1)]

/-- An AND-mode tree with two leaves (`Q(b=2, c=3)`). -/
def qAnd2 : Q := Q.init [("b", .int 2), ("c", .int 3)]

/-- An OR-mode tree with two children (`Q(b=2) | Q(c=3)`). -/
def qOr2 : Q := (Q.init [("b", .int 2)]).or (Q.init [("c", .int 3)])

/-! ### Helper lemmas -/

theorem FOV.deepcopy_id : FOV.deepcopy = id :=
  funext fun _ => rfl

mutual

theorem Q.deepcopy_eq (q : Q) : q.deepcopy = q := by
  cases q with
  | mk fovs children negate mode =>
    simp [Q.deepcopy, Q.deepcopyChildren_eq children, FOV.deepcopy_id]

theorem Q.deepcopyChildren_eq (l : List Q) : Q.deepcopyChildren l = l := by
  cases l with
  | nil => rfl
  | cons q qs => simp [Q.deepcopyChildren, Q.deepcopy_eq q, Q.deepcopyChildren_eq qs]

end

/-- The number of rendered top-level conditions of a tree: its leaves plus
its non-empty children (the length of `condition_sql` in `Q.to_sql`). -/
def Q.conditionCount (q : Q) : Nat :=
  q._fovs.length + (q._children.filter Q.toBool).length

theorem Q.childrenSql_eq (m : ModelCls) (l : List Q) :
    Q.childrenSql m l = (l.filter Q.toBool).map (Q.to_sql m) := by
  induction l with
  | nil => rfl
  | cons c cs ih =>
    by_cases h : c.toBool <;> simp [Q.childrenSql, List.filter_cons, h, ih]

/-! ### C1: combination of condition trees -/

/-- Claim C1, as stated, is false at a concrete input: `qAnd1` (AND mode)
and `qOr2` (OR mode) have different modes, yet `qAnd1 & qOr2` is not a new
parent with the two originals as its two children — the code flattens
`qOr2` into `qAnd1` and the result has a single child.  The parenthetical
is also false: combining the AND trees `qAnd1` (1 condition) and `qAnd2`
(2 conditions) gives 2 rendered top-level conditions, not 1 + 2 = 3. -/
theorem C1_counterexample :
    (qAnd1._mode ≠ qOr2._mode ∧ ((qAnd1.and qOr2)._children).length = 1) ∧
    (qAnd1._mode = Q.AND_MODE ∧ qAnd2._mode = Q.AND_MODE ∧
      (qAnd1.and qAnd2).conditionCount = 2 ∧
      qAnd1.conditionCount + qAnd2.conditionCount = 3) := by
  decide

/-- Claim C1 (amended): `Q._construct_from t1 t2 m` flattens into `t1`
whenever `m` equals `t1`'s mode (regardless of `t2`'s mode), appending
`t2` as one additional child, so its rendered top-level condition count is
`t1`'s count plus one when `t2` is non-empty (plus zero when empty);
otherwise it flattens into `t2` when `m` equals `t2`'s mode, appending
`t1`; only when `m` differs from both operands' modes (i.e. both operands
carry the other mode) is the result a new parent with mode `m` whose
children are exactly the two original trees. -/
theorem C1_construct_from (t1 t2 : Q) (m : String) :
    (m = t1._mode →
      Q._construct_from t1 t2 m
        = Q.mk t1._fovs (t1._children ++ [t2]) t1._negate t1._mode ∧
      (Q._construct_from t1 t2 m).conditionCount
        = t1.conditionCount + (if t2.toBool then 1 else 0)) ∧
    (m ≠ t1._mode → m = t2._mode →
      Q._construct_from t1 t2 m
        = Q.mk t2._fovs (t2._children ++ [t1]) t2._negate t2._mode) ∧
    (m ≠ t1._mode → m ≠ t2._mode →
      Q._construct_from t1 t2 m = Q.mk [] [t1, t2] false m) := by
  refine ⟨fun h1 => ⟨?_, ?_⟩, fun h1 h2 => ?_, fun h1 h2 => ?_⟩
  · simp [Q._construct_from, h1, Q.deepcopy_eq]
  · simp only [Q._construct_from, if_pos h1, Q.deepcopy_eq]
    by_cases h : t2.toBool <;>
      simp [Q.conditionCount, Q._fovs, Q._children, List.filter_append,
        List.filter_cons, h]
    all_goals omega
  · simp only [Q._construct_from]
    rw [if_neg h1, if_pos h2]
    simp [Q.deepcopy_eq]
  · simp only [Q._construct_from]
    rw [if_neg h1, if_neg h2]

/-- Witness for C1: all three branches of `C1_construct_from` at concrete
trees. -/
theorem C1_witness :
    (Q._construct_from qAnd1 qAnd2 Q.AND_MODE
      = Q.mk qAnd1._fovs (qAnd1._children ++ [qAnd2]) qAnd1._negate qAnd1._mode) ∧
    ((Q._construct_from qAnd1 qAnd2 Q.AND_MODE).conditionCount
      = qAnd1.conditionCount + (if qAnd2.toBool then 1 else 0)) ∧
    (Q._construct_from qOr2 qAnd1 Q.AND_MODE
      = Q.mk qAnd1._fovs (qAnd1._children ++ [qOr2]) qAnd1._negate qAnd1._mode) ∧
    (Q._construct_from qAnd1 qAnd2 Q.OR_MODE
      = Q.mk [] [qAnd1, qAnd2] false Q.OR_MODE) :=
  ⟨((C1_construct_from qAnd1 qAnd2 Q.AND_MODE).1 rfl).1,
   ((C1_construct_from qAnd1 qAnd2 Q.AND_MODE).1 rfl).2,
   (C1_construct_from qOr2 qAnd1 Q.AND_MODE).2.1 (by decide) rfl,
   (C1_construct_from qAnd1 qAnd2 Q.OR_MODE).2.2 (by decide) (by decide)⟩

/-! ### C2: copy-on-derive frame property -/

/-- Claim C2: every derivation method yields the receiver with exactly the
one designated field replaced — filter/exclude (via `_filter_or_exclude`)
replace the where-tree, or the prewhere-tree when the `prewhere` flag is
set; `order_by`, `only`, `distinct`, `final`, slicing, and the aggregate
builder's `group_by` and `with_totals` each replace their one field; all
other fields are those of the receiver (record-update equality), and the
receiver itself, being a pure value, is unchanged. -/
theorem C2_derivations_frame {Rec : Type} (qs : QuerySet Rec)
    (a : AggregateQuerySet Rec) (q : List Q) (kwargs : List (String × PyVal))
    (reverse : Bool) (fields names : List String) :
    (qs.filter q kwargs false = qs._filter_or_exclude q kwargs false false ∧
     qs.exclude q kwargs false = qs._filter_or_exclude q kwargs true false) ∧
    (qs._filter_or_exclude q kwargs reverse false
      = { qs with _where_q := (qs._filter_or_exclude q kwargs reverse false)._where_q }) ∧
    (qs._filter_or_exclude q kwargs reverse true
      = { qs with _prewhere_q := (qs._filter_or_exclude q kwargs reverse true)._prewhere_q }) ∧
    (qs.order_by fields = { qs with _order_by := fields }) ∧
    (qs.only fields = { qs with _fields := fields }) ∧
    (qs.distinct = { qs with _distinct := true }) ∧
    (qs._model_cls.engine = Engine.collapsingMergeTree →
      qs.final = .ok { qs with _final := true }) ∧
    (∀ (start stop step : Option Int) (r : QuerySet Rec),
      qs.getitem_slice start stop step = .ok r →
      r = { qs with _limits := r._limits }) ∧
    ((∀ name ∈ names, a.toQuerySet._fields.contains name
        ∨ (a._calculated_fields.map Prod.fst).contains name) →
      a.group_by names
        = .ok { a with toQuerySet := { a.toQuerySet with _grouping_fields := names } }) ∧
    (a.with_totals
      = { a with toQuerySet := { a.toQuerySet with _grouping_with_totals := true } }) := by
  refine ⟨⟨rfl, rfl⟩, rfl, rfl, rfl, rfl, rfl, fun h => ?_,
    fun start stop step r h => ?_, fun h => ?_, rfl⟩
  · simp [QuerySet.final, h]
  · simp only [QuerySet.getitem_slice] at h
    split at h
    · simp at h
    · split at h
      · simp at h
      · split at h
        · simp at h
        · injection h with h1
          subst h1
          rfl
  · have hfind : names.find? (fun name =>
        !(a.toQuerySet._fields.contains name
          || (a._calculated_fields.map Prod.fst).contains name)) = Option.none := by
      rw [List.find?_eq_none]
      intro x hx
      rcases h x hx with h' | h' <;> simp_all
    simp only [AggregateQuerySet.group_by]
    rw [hfind]

/-- Witness for C2: the fallible derivations at concrete inputs — the
slice frame is exercised both on `qs[0:0]` (the falsy-stop case) and on
the open-ended `qs[3:]`, whose successful results change only the limits
field. -/
theorem C2_witness :
    sampleQsCollapsing.final = .ok { sampleQsCollapsing with _final := true } ∧
    ({ sampleQs with _limits := some (0, 9223372036854775807) } : QuerySet Nat)
      = { sampleQs with _limits :=
          ({ sampleQs with
              _limits := some (0, 9223372036854775807) } : QuerySet Nat)._limits } ∧
    ({ sampleQs with _limits := some (3, 9223372036854775804) } : QuerySet Nat)
      = { sampleQs with _limits :=
          ({ sampleQs with
              _limits := some (3, 9223372036854775804) } : QuerySet Nat)._limits } ∧
    sampleAqs.group_by ["date"]
      = .ok { sampleAqs with
          toQuerySet := { sampleAqs.toQuerySet with _grouping_fields := ["date"] } } := by
  refine ⟨?_, ?_, ?_, ?_⟩
  · exact (C2_derivations_frame sampleQsCollapsing sampleAqs [] [] false []
      ["date"]).2.2.2.2.2.2.1 rfl
  · exact (C2_derivations_frame sampleQs sampleAqs [] [] false []
      ["date"]).2.2.2.2.2.2.2.1 (some 0) (some 0) Option.none _ rfl
  · exact (C2_derivations_frame sampleQs sampleAqs [] [] false []
      ["date"]).2.2.2.2.2.2.2.1 (some 3) Option.none Option.none _ rfl
  · exact (C2_derivations_frame sampleQs sampleAqs [] [] false []
      ["date"]).2.2.2.2.2.2.2.2.1 (by decide)

/-! ### C3: deep-copy discipline of tree combination -/

theorem Qi.idsChildren_append (a b : List Qi) :
    Qi.idsChildren (a ++ b) = Qi.idsChildren a ++ Qi.idsChildren b := by
  induction a with
  | nil => rfl
  | cons q qs ih => simp [Qi.idsChildren, ih]

theorem Qi.ids_append_child (q x : Qi) :
    Qi.ids (.mk q.oid q._fovs (q._children ++ [x]) q._negate q._mode)
      = q.ids ++ x.ids := by
  cases q with
  | mk o f c n m =>
    simp [Qi.ids, Qi.oid, Qi._fovs, Qi._children, Qi._negate, Qi._mode,
      Qi.idsChildren_append, Qi.idsChildren]

theorem Qi.deepcopyFovs_counter_le (fs : List FOVi) (c : Nat) :
    c ≤ (Qi.deepcopyFovs fs c).2 := by
  induction fs generalizing c with
  | nil => simp [Qi.deepcopyFovs]
  | cons f fs ih =>
    simp only [Qi.deepcopyFovs, FOVi.deepcopy]
    have := ih (c + 1)
    omega

theorem Qi.deepcopyFovs_oid_ge (fs : List FOVi) (c : Nat) :
    ∀ i ∈ ((Qi.deepcopyFovs fs c).1).map FOVi.oid, c ≤ i := by
  induction fs generalizing c with
  | nil => simp [Qi.deepcopyFovs]
  | cons f fs ih =>
    simp only [Qi.deepcopyFovs, FOVi.deepcopy, List.map_cons, List.mem_cons]
    rintro i (heq | hi)
    · exact heq.ge
    · have := ih (c + 1) i hi
      omega

mutual

theorem Qi.deepcopy_counter_le (q : Qi) (c : Nat) : c ≤ (Qi.deepcopy q c).2 := by
  cases q with
  | mk o fovs children n m =>
    simp only [Qi.deepcopy]
    have h1 := Qi.deepcopyFovs_counter_le fovs c
    have h2 := Qi.deepcopyChildren_counter_le children (Qi.deepcopyFovs fovs c).2
    omega

theorem Qi.deepcopyChildren_counter_le (l : List Qi) (c : Nat) :
    c ≤ (Qi.deepcopyChildren l c).2 := by
  cases l with
  | nil => simp [Qi.deepcopyChildren]
  | cons q qs =>
    simp only [Qi.deepcopyChildren]
    have h1 := Qi.deepcopy_counter_le q c
    have h2 := Qi.deepcopyChildren_counter_le qs (Qi.deepcopy q c).2
    omega

end

mutual

theorem Qi.deepcopy_ids_ge (q : Qi) (c : Nat) :
    ∀ i ∈ (Qi.deepcopy q c).1.ids, c ≤ i := by
  cases q with
  | mk o fovs children n m =>
    simp only [Qi.deepcopy, Qi.ids, List.mem_cons, List.mem_append]
    rintro i (rfl | hf | hc)
    · have h1 := Qi.deepcopyFovs_counter_le fovs c
      have h2 := Qi.deepcopyChildren_counter_le children (Qi.deepcopyFovs fovs c).2
      omega
    · exact Qi.deepcopyFovs_oid_ge fovs c i hf
    · have h1 := Qi.deepcopyFovs_counter_le fovs c
      have h2 := Qi.deepcopyChildren_ids_ge children (Qi.deepcopyFovs fovs c).2 i hc
      omega

theorem Qi.deepcopyChildren_ids_ge (l : List Qi) (c : Nat) :
    ∀ i ∈ Qi.idsChildren (Qi.deepcopyChildren l c).1, c ≤ i := by
  cases l with
  | nil => simp [Qi.deepcopyChildren, Qi.idsChildren]
  | cons q qs =>
    simp only [Qi.deepcopyChildren, Qi.idsChildren, List.mem_append]
    rintro i (hq | hqs)
    · exact Qi.deepcopy_ids_ge q c i hq
    · have h1 := Qi.deepcopy_counter_le q c
      have h2 := Qi.deepcopyChildren_ids_ge qs (Qi.deepcopy q c).2 i hqs
      omega

end

theorem Qi.erase_fovs (q : Qi) : q.erase._fovs = q._fovs.map FOVi.erase := by
  cases q; rfl

theorem Qi.erase_children (q : Qi) :
    q.erase._children = Qi.eraseChildren q._children := by
  cases q; rfl

theorem Qi.erase_negate (q : Qi) : q.erase._negate = q._negate := by
  cases q; rfl

theorem Qi.erase_mode (q : Qi) : q.erase._mode = q._mode := by
  cases q; rfl

theorem Qi.eraseChildren_append (a b : List Qi) :
    Qi.eraseChildren (a ++ b) = Qi.eraseChildren a ++ Qi.eraseChildren b := by
  induction a with
  | nil => rfl
  | cons q qs ih => simp [Qi.eraseChildren, ih]

theorem Qi.construct_from_flatten_l (l r : Qi) (m : String) (ctr : Nat)
    (h : m = l._mode) :
    Qi._construct_from l r m ctr
      = (.mk (Qi.deepcopy l ctr).1.oid (Qi.deepcopy l ctr).1._fovs
          ((Qi.deepcopy l ctr).1._children ++ [(Qi.deepcopy r (Qi.deepcopy l ctr).2).1])
          (Qi.deepcopy l ctr).1._negate (Qi.deepcopy l ctr).1._mode,
         (Qi.deepcopy r (Qi.deepcopy l ctr).2).2) := by
  simp only [Qi._construct_from, if_pos h]

theorem Qi.construct_from_flatten_r (l r : Qi) (m : String) (ctr : Nat)
    (h1 : m ≠ l._mode) (h2 : m = r._mode) :
    Qi._construct_from l r m ctr
      = (.mk (Qi.deepcopy r ctr).1.oid (Qi.deepcopy r ctr).1._fovs
          ((Qi.deepcopy r ctr).1._children ++ [(Qi.deepcopy l (Qi.deepcopy r ctr).2).1])
          (Qi.deepcopy r ctr).1._negate (Qi.deepcopy r ctr).1._mode,
         (Qi.deepcopy l (Qi.deepcopy r ctr).2).2) := by
  simp only [Qi._construct_from]
  rw [if_neg h1, if_pos h2]

theorem Qi.construct_from_new (l r : Qi) (m : String) (ctr : Nat)
    (h1 : m ≠ l._mode) (h2 : m ≠ r._mode) :
    Qi._construct_from l r m ctr = (.mk ctr [] [l, r] false m, ctr + 1) := by
  simp only [Qi._construct_from]
  rw [if_neg h1, if_neg h2]

theorem Qi.erase_append_child (q x : Qi) :
    Qi.erase (.mk q.oid q._fovs (q._children ++ [x]) q._negate q._mode)
      = Q.mk q.erase._fovs (q.erase._children ++ [x.erase]) q.erase._negate
          q.erase._mode := by
  cases q with
  | mk o f c n m =>
    simp [Qi.erase, Qi.oid, Qi._fovs, Qi._children, Qi._negate, Qi._mode,
      Qi.eraseChildren_append, Qi.eraseChildren,
      Q._fovs, Q._children, Q._negate, Q._mode]

theorem Qi.erase_deepcopyFovs (fs : List FOVi) (c : Nat) :
    ((Qi.deepcopyFovs fs c).1).map FOVi.erase = fs.map FOVi.erase := by
  induction fs generalizing c with
  | nil => rfl
  | cons f fs ih => simp [Qi.deepcopyFovs, FOVi.deepcopy, FOVi.erase, ih]

mutual

theorem Qi.erase_deepcopy (q : Qi) (c : Nat) : (Qi.deepcopy q c).1.erase = q.erase := by
  cases q with
  | mk o fovs children n m =>
    simp [Qi.deepcopy, Qi.erase, Qi.erase_deepcopyFovs,
      Qi.erase_deepcopyChildren children]

theorem Qi.erase_deepcopyChildren (l : List Qi) (c : Nat) :
    Qi.eraseChildren (Qi.deepcopyChildren l c).1 = Qi.eraseChildren l := by
  cases l with
  | nil => rfl
  | cons q qs =>
    simp [Qi.deepcopyChildren, Qi.eraseChildren, Qi.erase_deepcopy q,
      Qi.erase_deepcopyChildren qs]

end

/-- `Q(a=1)` with node identity 0 and leaf identity 1 (AND mode). -/
def qiA : Qi := .mk 0 [⟨1, "a", eq_operator, .int 1⟩] [] false "AND"

/-- `Q(b=2)` with node identity 2 and leaf identity 3 (AND mode). -/
def qiB : Qi := .mk 2 [⟨3, "b", eq_operator, .int 2⟩] [] false "AND"

/-- Claim C3, as stated, is false at a concrete input: combining the two
AND-mode trees `qiA | qiB` takes the different-modes branch, which does
NOT deep-copy the operands — the combined tree's children are the two
original tree objects themselves, so it shares their structure (their
object identities occur in the result). -/
theorem C3_counterexample :
    qiA._mode = qiB._mode ∧
    "OR" ≠ qiA._mode ∧
    (Qi._construct_from qiA qiB "OR" 4).1._children = [qiA, qiB] ∧
    qiA.oid ∈ (Qi._construct_from qiA qiB "OR" 4).1.ids ∧
    qiA.oid ∈ qiA.ids :=
  ⟨rfl, by decide, rfl, by decide, by decide⟩

/-- Claim C3 (amended): when the requested mode matches one operand's mode
(the flatten branches), `Q._construct_from` operates on deep copies of
both operands and the result shares no object (node or leaf) with either
original; but when the requested mode differs from both operands' modes,
the new parent's children are the two original trees themselves, without
copying.  In every case the combined tree denotes exactly the pure
combination of the operands' values (and, the operands being values, they
themselves are unaffected), so the originals render the same SQL
afterwards and independent derivation of either operand cannot affect the
combined tree. -/
theorem C3_construct_from_copies (l r : Qi) (m : String) (ctr : Nat)
    (hl : ∀ j ∈ l.ids, j < ctr) (hr : ∀ j ∈ r.ids, j < ctr) :
    ((m = l._mode ∨ m = r._mode) →
      ∀ i ∈ (Qi._construct_from l r m ctr).1.ids, i ∉ l.ids ∧ i ∉ r.ids) ∧
    (m ≠ l._mode → m ≠ r._mode →
      (Qi._construct_from l r m ctr).1._children = [l, r]) ∧
    ((Qi._construct_from l r m ctr).1.erase
      = Q._construct_from l.erase r.erase m) := by
  refine ⟨fun hm i hi => ?_, fun h1 h2 => ?_, ?_⟩
  · have hge : ctr ≤ i := by
      by_cases hL : m = l._mode
      · rw [Qi.construct_from_flatten_l l r m ctr hL] at hi
        rw [Qi.ids_append_child] at hi
        rcases List.mem_append.mp hi with h | h
        · exact Qi.deepcopy_ids_ge l ctr i h
        · have h1 := Qi.deepcopy_ids_ge r (Qi.deepcopy l ctr).2 i h
          have h2 := Qi.deepcopy_counter_le l ctr
          omega
      · have hR : m = r._mode := hm.resolve_left hL
        rw [Qi.construct_from_flatten_r l r m ctr hL hR] at hi
        rw [Qi.ids_append_child] at hi
        rcases List.mem_append.mp hi with h | h
        · exact Qi.deepcopy_ids_ge r ctr i h
        · have h1 := Qi.deepcopy_ids_ge l (Qi.deepcopy r ctr).2 i h
          have h2 := Qi.deepcopy_counter_le r ctr
          omega
    exact ⟨fun hmem => absurd (hl i hmem) (by omega),
           fun hmem => absurd (hr i hmem) (by omega)⟩
  · rw [Qi.construct_from_new l r m ctr h1 h2]
    rfl
  · by_cases hL : m = l._mode
    · rw [Qi.construct_from_flatten_l l r m ctr hL]
      have hL' : m = (Qi.erase l)._mode := by rw [Qi.erase_mode]; exact hL
      simp only [Q._construct_from, if_pos hL', Q.deepcopy_eq]
      rw [Qi.erase_append_child, Qi.erase_deepcopy, Qi.erase_deepcopy]
    · by_cases hR : m = r._mode
      · rw [Qi.construct_from_flatten_r l r m ctr hL hR]
        have hL' : ¬ m = (Qi.erase l)._mode := by rw [Qi.erase_mode]; exact hL
        have hR' : m = (Qi.erase r)._mode := by rw [Qi.erase_mode]; exact hR
        simp only [Q._construct_from]
        rw [if_neg hL', if_pos hR']
        simp only [Q.deepcopy_eq]
        rw [Qi.erase_append_child, Qi.erase_deepcopy, Qi.erase_deepcopy]
      · rw [Qi.construct_from_new l r m ctr hL hR]
        have hL' : ¬ m = (Qi.erase l)._mode := by rw [Qi.erase_mode]; exact hL
        have hR' : ¬ m = (Qi.erase r)._mode := by rw [Qi.erase_mode]; exact hR
        simp only [Q._construct_from]
        rw [if_neg hL', if_neg hR']
        simp [Qi.erase, Qi.eraseChildren]

/-- Witness for C3: at concrete instrumented trees, the same-mode (AND)
combination shares no identity with the operands (checked at the result
identity 5), and the different-modes (OR) combination still erases to the
pure combination. -/
theorem C3_witness :
    (5 ∉ qiA.ids ∧ 5 ∉ qiB.ids) ∧
    (Qi._construct_from qiA qiB "OR" 4).1.erase
      = Q._construct_from qiA.erase qiB.erase "OR" := by
  constructor
  · exact ((C3_construct_from_copies qiA qiB "AND" 4 (by decide) (by decide)).1
      (Or.inl rfl)) 5 (by decide)
  · exact (C3_construct_from_copies qiA qiB "OR" 4 (by decide) (by decide)).2.2

/-! ### C4: double negation -/

/-- `Q(x=1)`. -/
def qX : Q := Q.init [("x", .int 1)]

/-- Claim C4, as stated, is false at a concrete input: `~~Q(x=1)` renders
`NOT (x = 1)`, not `NOT (NOT (x = 1))` — negation is a boolean flag, so a
second application changes nothing. -/
theorem C4_counterexample :
    (qX.invert.invert).to_sql sampleModel = "NOT (x = 1)" ∧
    (qX.invert.invert).to_sql sampleModel ≠ "NOT (NOT (x = 1))" := by
  refine ⟨rfl, by decide⟩

/-- Claim C4 (amended): negation sets a flag consulted once at render
time — rendering wraps the whole rendered sub-expression in a single
`NOT (...)` and does not push into children; repeated application is
idempotent (`~~q = ~q`), so a doubly negated tree renders
`NOT (<condition>)`, not `NOT (NOT (<condition>))`. -/
theorem C4_negation (m : ModelCls) (q : Q) :
    q.invert.invert = q.invert ∧
    q.invert.to_sql m
      = "NOT (" ++ (Q.mk q._fovs q._children false q._mode).to_sql m ++ ")" := by
  cases q with
  | mk fovs children negate mode =>
    constructor
    · rfl
    · simp [Q.invert, Q.to_sql, Q._fovs, Q._children, Q._mode]

/-! ### C5: the `between` operator's absent-bound handling -/

/-- Claim C5 describes the documented behaviour (`BetweenOperator`'s own
docstring: `'>= value[0]' if value[1] is None or empty`), but the code's
guard `value[i] is not None or len(str(value[i])) > 0` uses `or` where
`and` was evidently intended: `str(None) = "None"` is non-empty, so the
guard is true for EVERY value and the `None` marker is never produced.
An absent (`None`) bound is therefore pushed through the field's
conversion like a present one: with a field provider that converts `None`
to the null literal `\N`, `between('2020-01-01', None)` renders
`x BETWEEN '2020-01-01' AND \N` instead of the documented
`x >= '2020-01-01'` (providers that reject `None` raise instead). -/
theorem C5_between_guard_bug :
    (∀ v : PyVal, pyBetweenGuard v = true) ∧
    betweenSql (sampleConv "x") "x" (.pair (.str "2020-01-01") .none)
      = some "x BETWEEN '2020-01-01' AND \\N" ∧
    betweenSql (sampleConv "x") "x" (.pair (.str "2020-01-01") .none)
      ≠ some "x >= '2020-01-01'" := by
  refine ⟨fun v => ?_, rfl, by decide⟩
  cases v <;> simp [pyBetweenGuard, PyVal.isNone, pyStr]
  all_goals decide

/-! ### C6: counting strategy -/

/-- Claim C6: `QuerySet.count` goes through the data source's `raw` call
on the wrapped statement `SELECT count() FROM (<full SQL>)` exactly when
the distinct flag or limits are set, and otherwise through the data
source's direct count on the SQL of the where-tree AND-combined with the
prewhere-tree; `AggregateQuerySet.count` always uses the wrapped form. -/
theorem C6_count {Rec : Type} (qs : QuerySet Rec) (a : AggregateQuerySet Rec) :
    (qs._distinct = true ∨ qs._limits.isSome →
      qs.count
        = pyIntOfRaw (qs._database.raw ("SELECT count() FROM (" ++ qs.as_sql ++ ")"))) ∧
    (qs._distinct = false → qs._limits = Option.none →
      qs.count
        = qs._database.count (qs.conditions_as_sql (qs._where_q.and qs._prewhere_q))) ∧
    (a.count
      = pyIntOfRaw (a.toQuerySet._database.raw
          ("SELECT count() FROM (" ++ a.as_sql ++ ")"))) := by
  refine ⟨fun h => ?_, fun h1 h2 => ?_, rfl⟩
  · have hb : (qs._distinct || qs._limits.isSome) = true := by
      rcases h with h | h <;> simp [h]
    simp [QuerySet.count, hb]
  · simp [QuerySet.count, h1, h2]

/-- Witness for C6: with the sample data source (`raw` returning `"5"`,
direct count 3), a distinct queryset counts via the sub-query and a plain
one via the direct count. -/
theorem C6_witness : sampleQs.distinct.count = 5 ∧ sampleQs.count = 3 := by
  constructor
  · rw [(C6_count sampleQs.distinct sampleAqs).1 (Or.inl rfl)]
    rfl
  · rw [(C6_count sampleQs sampleAqs).2.1 rfl rfl]
    rfl

/-! ### C7: indexing and slicing -/

/-- Claim C7, as stated, is false at a concrete input: `qs[0:0]` has
non-negative bounds with `start <= stop` and no step, yet its limits are
not `(0, 0)` — Python's `s.stop or 2**63 - 1` treats the falsy stop `0`
like an absent one, producing `(0, 2**63 - 1)`. -/
theorem C7_counterexample :
    sampleQs.getitem_slice (some 0) (some 0) Option.none
      = .ok { sampleQs with _limits := some (0, 9223372036854775807) } ∧
    (9223372036854775807 : Int) ≠ 0 - 0 := by
  refine ⟨rfl, by norm_num⟩

/-- Claim C7 (amended): a non-negative integer index sets limits to
`(i, 1)` and eagerly fetches the single first record, failing if the
source yields none; a negative index fails.  A slice with step unset (or
1), non-negative bounds, `start <= stop` and `stop ≠ 0` yields a derived
builder with limits `(start, stop - start)` (so `qs[0:10]` renders
`LIMIT 0, 10`); a falsy (`0` or absent) stop is replaced by `2**63 - 1`
before the checks; negative bounds, decreasing bounds, or a step other
than 1 fail.  A builder with limits `(o, c)` renders the base statement
followed by `LIMIT o, c`. -/
theorem C7_getitem {Rec : Type} (qs : QuerySet Rec) (i start stop step : Int) :
    (0 ≤ i → qs.getitem_index i
      = match ({ qs with _limits := some (i, 1) } : QuerySet Rec).iter.head? with
        | some r => .ok r
        | Option.none => .error "StopIteration") ∧
    (i < 0 → qs.getitem_index i = .error "negative indexes are not supported") ∧
    (0 ≤ start → 0 ≤ stop → start ≤ stop → stop ≠ 0 →
      qs.getitem_slice (some start) (some stop) Option.none
        = .ok { qs with _limits := some (start, stop - start) }) ∧
    (∀ o c : Int, ({ qs with _limits := some (o, c) } : QuerySet Rec).as_sql
      = ({ qs with _limits := Option.none } : QuerySet Rec).as_sql
        ++ "\nLIMIT " ++ toString o ++ ", " ++ toString c) ∧
    (start < 0 ∨ stop < 0 →
      qs.getitem_slice (some start) (some stop) Option.none
        = .error "negative indexes are not supported") ∧
    (0 ≤ start → 0 ≤ stop → stop ≠ 0 → stop < start →
      qs.getitem_slice (some start) (some stop) Option.none
        = .error "start of slice cannot be smaller than its end") ∧
    (step ≠ 1 →
      qs.getitem_slice (some start) (some stop) (some step)
        = .error "step is not supported in slices") := by
  have hor : ∀ v : Int, v ≠ 0 → pyOrInt (some v) (9223372036854775807 : Int) = v := by
    intro v hv
    simp [pyOrInt, hv]
  have hor0 : ∀ v : Int, pyOrInt (some v) 0 = v := by
    intro v
    by_cases hv : v = 0 <;> simp [pyOrInt, hv]
  refine ⟨fun h => ?_, fun h => ?_, fun h1 h2 h3 h4 => ?_, fun o c => rfl,
    fun h => ?_, fun h1 h2 h3 h4 => ?_, fun h => ?_⟩
  · have : ¬ i < 0 := by omega
    simp [QuerySet.getitem_index, this]
  · simp [QuerySet.getitem_index, h]
  · have h5 : ¬ stop < 0 := by omega
    have h6 : ¬ stop < start := by omega
    simp [QuerySet.getitem_slice, hor0, hor stop h4, h1, h5, h6]
  · rcases h with h | h
    · have h4 : ¬ (0 ≤ start) := by omega
      simp [QuerySet.getitem_slice, hor0, h4]
    · have h4 : ¬ (0 ≤ stop) := by omega
      have h5 : stop ≠ 0 := by omega
      simp [QuerySet.getitem_slice, hor0, hor stop h5, h4]
  · have h5 : ¬ stop < 0 := by omega
    simp [QuerySet.getitem_slice, hor0, hor stop h3, h1, h5, h4]
  · have hstep : ¬ (some step = Option.none ∨ some step = some 1) := by
      simp [h]
    simp only [QuerySet.getitem_slice]
    rw [if_pos hstep]

/-- Witness for C7: concrete index fetches, slices and failures over the
sample queryset. -/
theorem C7_witness :
    sampleQs.getitem_index 0 = .ok 7 ∧
    sampleQs.getitem_index (-1) = .error "negative indexes are not supported" ∧
    sampleQs.getitem_slice (some 0) (some 10) Option.none
      = .ok { sampleQs with _limits := some (0, 10) } ∧
    ({ sampleQs with _limits := some (0, 10) } : QuerySet Nat).as_sql
      = ({ sampleQs with _limits := Option.none } : QuerySet Nat).as_sql
        ++ "\nLIMIT " ++ toString (0 : Int) ++ ", " ++ toString (10 : Int) ∧
    sampleQs.getitem_slice (some 5) (some 2) Option.none
      = .error "start of slice cannot be smaller than its end" ∧
    sampleQs.getitem_slice (some 0) (some 10) (some 2)
      = .error "step is not supported in slices" := by
  refine ⟨?_, ?_, ?_, ?_, ?_, ?_⟩
  · rw [(C7_getitem sampleQs 0 0 10 2).1 (by norm_num)]
    rfl
  · exact (C7_getitem sampleQs (-1) 0 10 2).2.1 (by norm_num)
  · simpa using (C7_getitem sampleQs 0 0 10 2).2.2.1
      (by norm_num) (by norm_num) (by norm_num) (by norm_num)
  · exact (C7_getitem sampleQs 0 0 10 2).2.2.2.1 0 10
  · exact (C7_getitem sampleQs 0 5 2 2).2.2.2.2.2.1
      (by norm_num) (by norm_num) (by norm_num) (by norm_num)
  · exact (C7_getitem sampleQs 0 0 10 2).2.2.2.2.2.2 (by norm_num)

/-! ### C8: filter-keyword parsing -/

theorem rsplitDunder_reconstruct (l : List Char) :
    ∀ f op, rsplitDunder l = some (f, op) → l = f ++ '_' :: '_' :: op := by
  induction l with
  | nil => intro f op h; exact absurd h (by simp [rsplitDunder])
  | cons c rest ih =>
    intro f op h
    simp only [rsplitDunder] at h
    cases hr : rsplitDunder rest with
    | some p =>
      rw [hr] at h
      obtain ⟨f', op'⟩ := p
      injection h with h1
      injection h1 with h2 h3
      subst h2
      subst h3
      simp [ih f' op' hr]
    | none =>
      rw [hr] at h
      cases rest with
      | nil => simp at h
      | cons c2 tail =>
        dsimp only at h
        by_cases hcc : c = '_' ∧ c2 = '_'
        · rw [if_pos hcc] at h
          injection h with h1
          injection h1 with h2 h3
          subst h2
          subst h3
          obtain ⟨hc, hc2⟩ := hcc
          subst hc
          subst hc2
          rfl
        · rw [if_neg hcc] at h
          simp at h

/-- Claim C8: `Q._build_fov` splits the keyword at its last `__`; when the
suffix is a registered operator name the leaf carries the prefix as field
and that operator, and the split pieces reassemble to the original key;
when the suffix is unknown (or there is no `__`) the whole key is the
field name and the operator defaults to `eq`.  Concretely,
`filter(date__gt='2020-01-01')` renders `date > '2020-01-01'` and
`filter(my__field=1)` renders `my__field = 1`. -/
theorem C8_key_parsing :
    (∀ (key : String) (v : PyVal) (f op : List Char) (o : Operator),
      rsplitDunder key.data = some (f, op) → _operators (String.mk op) = some o →
      Q._build_fov key v = ⟨String.mk f, o, v⟩
        ∧ String.mk f ++ "__" ++ String.mk op = key) ∧
    (∀ (key : String) (v : PyVal) (f op : List Char),
      rsplitDunder key.data = some (f, op) →
      _operators (String.mk op) = Option.none →
      Q._build_fov key v = ⟨key, eq_operator, v⟩) ∧
    (∀ (key : String) (v : PyVal),
      rsplitDunder key.data = Option.none →
      Q._build_fov key v = ⟨key, eq_operator, v⟩) ∧
    (Q.init [("date__gt", .str "2020-01-01")]).to_sql sampleModel
      = "date > '2020-01-01'" ∧
    (Q.init [("my__field", .int 1)]).to_sql sampleModel = "my__field = 1" := by
  have hrecon : ∀ (key : String) (f op : List Char),
      rsplitDunder key.data = some (f, op) →
      String.mk f ++ "__" ++ String.mk op = key := by
    intro key f op h
    have h2 := rsplitDunder_reconstruct key.data f op h
    have hm : ∀ a b : List Char, String.mk a ++ String.mk b = String.mk (a ++ b) :=
      fun a b => rfl
    have hdunder : "__" = String.mk ['_', '_'] := rfl
    cases key with
    | mk data =>
      simp only [String.data] at h2
      subst h2
      rw [hdunder, hm, hm]
      simp
  refine ⟨fun key v f op o h ho => ⟨?_, hrecon key f op h⟩,
    fun key v f op h ho => ?_, fun key v h => ?_, rfl, rfl⟩
  · simp [Q._build_fov, h, FOV.init, ho]
  · simp only [Q._build_fov, h, FOV.init, ho]
    have := hrecon key f op h
    simp [this]
  · simp [Q._build_fov, h, FOV.init, _operators]

/-- Witness for C8: the two example keywords, parsed through
`C8_key_parsing` at their concrete splits. -/
theorem C8_witness :
    Q._build_fov "date__gt" (.str "2020-01-01")
      = ⟨"date", Operator.simple ">" Option.none, .str "2020-01-01"⟩ ∧
    Q._build_fov "my__field" (.int 1) = ⟨"my__field", eq_operator, .int 1⟩ := by
  constructor
  · exact (C8_key_parsing.1 "date__gt" (.str "2020-01-01") "date".data "gt".data
      (Operator.simple ">" Option.none) (by decide) (by decide)).1
  · exact C8_key_parsing.2.1 "my__field" (.int 1) "my".data "field".data
      (by decide) (by decide)

/-! ### C9: pagination -/

/-- A valid slice succeeds with limits `(start, stop - start)`. -/
theorem getitem_slice_ok {Rec : Type} (qs : QuerySet Rec) (start stop : Int)
    (h1 : 0 ≤ start) (h2 : 0 ≤ stop) (h3 : start ≤ stop) (h4 : stop ≠ 0) :
    qs.getitem_slice (some start) (some stop) Option.none
      = .ok { qs with _limits := some (start, stop - start) } := by
  have hor0 : pyOrInt (some start) 0 = start := by
    by_cases hs : start = 0 <;> simp [pyOrInt, hs]
  have hstop : pyOrInt (some stop) (9223372036854775807 : Int) = stop := by
    simp [pyOrInt, h4]
  have h5 : ¬ stop < 0 := by omega
  have h6 : ¬ stop < start := by omega
  simp [QuerySet.getitem_slice, hor0, hstop, h1, h5, h6]

/-- `(count + page_size - 1) / page_size` is the exact rational ceiling of
`count / page_size` for a positive page size. -/
theorem ceilDivInt_eq_ceil (count page_size : Int) (hp : 0 < page_size) :
    ceilDivInt count page_size = ⌈(count : ℚ) / (page_size : ℚ)⌉ := by
  have hp' : (0 : ℚ) < (page_size : ℚ) := by exact_mod_cast hp
  have e1 := Int.ediv_add_emod (count + page_size - 1) page_size
  have hr0 : 0 ≤ (count + page_size - 1) % page_size :=
    Int.emod_nonneg _ (by omega)
  have hrlt : (count + page_size - 1) % page_size < page_size :=
    Int.emod_lt_of_pos _ hp
  rw [eq_comm, Int.ceil_eq_iff]
  constructor
  · have key1 : (ceilDivInt count page_size - 1) * page_size < count := by
      have e2 : page_size * ((count + page_size - 1) / page_size)
          = count + page_size - 1 - (count + page_size - 1) % page_size := by
        linarith
      unfold ceilDivInt
      nlinarith
    rw [show ((ceilDivInt count page_size : Int) : ℚ) - 1
        = ((ceilDivInt count page_size - 1 : Int) : ℚ) by push_cast; ring]
    rw [lt_div_iff₀ hp']
    exact_mod_cast key1
  · have key2 : count ≤ ceilDivInt count page_size * page_size := by
      have e2 : page_size * ((count + page_size - 1) / page_size)
          = count + page_size - 1 - (count + page_size - 1) % page_size := by
        linarith
      unfold ceilDivInt
      nlinarith
    rw [div_le_iff₀ hp']
    exact_mod_cast key2

/-- A queryset over a data source with no matching rows. -/
theorem C9_counterexample :
    emptyQs.count = 0 ∧
    emptyQs.paginate (-1) 100 = .error "negative indexes are not supported" :=
  ⟨rfl, rfl⟩

/-- Claim C9 (amended): `paginate` computes
`pages_total = ceil(count / page_size)` exactly; a `page_num ≥ 1` yields
the page record carrying the rows of the derived slice with limits
`((page_num-1)*page_size, page_size)` together with
`number_of_objects = count`, `pages_total`, `number = page_num` and the
page size; `page_num = -1` selects the last page PROVIDED at least one
page exists (`pages_total ≥ 1`) — on an empty result set the internal
slice receives a negative offset and fails; any other `page_num < 1`
fails with `Invalid page number` before any page is fetched. -/
theorem C9_paginate {Rec : Type} (qs : QuerySet Rec) (page_num page_size : Int) :
    (0 < page_size →
      ceilDivInt qs.count page_size = ⌈(qs.count : ℚ) / (page_size : ℚ)⌉) ∧
    (0 < page_size → 1 ≤ page_num →
      qs.paginate page_num page_size
        = .ok ⟨({ qs with
              _limits := some ((page_num - 1) * page_size, page_size) } :
                QuerySet Rec).iter,
            qs.count, ceilDivInt qs.count page_size, page_num, page_size⟩) ∧
    (0 < page_size → 1 ≤ ceilDivInt qs.count page_size →
      qs.paginate (-1) page_size
        = .ok ⟨({ qs with
              _limits := some ((ceilDivInt qs.count page_size - 1) * page_size,
                page_size) } : QuerySet Rec).iter,
            qs.count, ceilDivInt qs.count page_size,
            ceilDivInt qs.count page_size, page_size⟩) ∧
    (page_num < 1 → page_num ≠ -1 →
      qs.paginate page_num page_size
        = .error ("Invalid page number: " ++ toString page_num)) := by
  refine ⟨fun hp => ceilDivInt_eq_ceil qs.count page_size hp,
    fun hp hn => ?_, fun hp hpt => ?_, fun h1 h2 => ?_⟩
  · have hne : ¬ page_num = -1 := by omega
    have hlt : ¬ page_num < 1 := by omega
    have hoff : 0 ≤ (page_num - 1) * page_size :=
      mul_nonneg (by omega) (by omega)
    have hstop2 : 0 < (page_num - 1) * page_size + page_size := by linarith
    have hs := getitem_slice_ok qs ((page_num - 1) * page_size)
      ((page_num - 1) * page_size + page_size) hoff (by linarith) (by linarith)
      hstop2.ne'
    have harith : (page_num - 1) * page_size + page_size
        - (page_num - 1) * page_size = page_size := by ring
    rw [harith] at hs
    simp only [QuerySet.paginate]
    rw [if_neg hne, if_neg hlt]
    dsimp only
    rw [hs]
  · have hoff : 0 ≤ (ceilDivInt qs.count page_size - 1) * page_size :=
      mul_nonneg (by omega) (by omega)
    have hstop2 : 0 < (ceilDivInt qs.count page_size - 1) * page_size + page_size := by
      linarith
    have hs := getitem_slice_ok qs ((ceilDivInt qs.count page_size - 1) * page_size)
      ((ceilDivInt qs.count page_size - 1) * page_size + page_size) hoff
      (by linarith) (by linarith) hstop2.ne'
    have harith : (ceilDivInt qs.count page_size - 1) * page_size + page_size
        - (ceilDivInt qs.count page_size - 1) * page_size = page_size := by ring
    rw [harith] at hs
    simp only [QuerySet.paginate, if_true]
    rw [hs]
  · simp only [QuerySet.paginate]
    rw [if_neg h2, if_pos h1]

/-- Witness for C9: three pages of size 2 over the sample source
(count 3): page 1 and the last page (page 2) succeed, page 0 fails. -/
theorem C9_witness :
    sampleQs.paginate 1 2 = .ok ⟨[7], 3, 2, 1, 2⟩ ∧
    sampleQs.paginate (-1) 2 = .ok ⟨[7], 3, 2, 2, 2⟩ ∧
    sampleQs.paginate 0 2 = .error "Invalid page number: 0" := by
  refine ⟨?_, ?_, ?_⟩
  · rw [(C9_paginate sampleQs 1 2).2.1 (by norm_num) (by norm_num)]
    rfl
  · rw [(C9_paginate sampleQs (-1) 2).2.2.1 (by norm_num) (by decide)]
    rfl
  · rw [(C9_paginate sampleQs 0 2).2.2.2 (by norm_num) (by norm_num)]
    have h0 : ("Invalid page number: " ++ toString (0 : Int))
        = "Invalid page number: 0" := by decide
    rw [h0]

/-! ### C10: rendering skips empty children -/

/-- Claim C10, as stated, is false at one point: a tree with no leaves and
no (hence vacuously all-empty) children but with the negation flag set
renders `NOT (1)`, not `1`. -/
theorem C10_counterexample :
    (Q.init []).invert._fovs = [] ∧
    (Q.init []).invert._children = [] ∧
    (Q.init []).invert.to_sql sampleModel = "NOT (1)" ∧
    (Q.init []).invert.to_sql sampleModel ≠ "1" :=
  ⟨rfl, rfl, rfl, by decide⟩

/-- Claim C10 (amended): rendering skips empty children — dropping the
empty children of a tree leaves its rendering unchanged; a tree with no
leaves whose children are all empty renders `1` when the negation flag is
unset (and `NOT (1)` when set); the rendered condition list is the leaves
followed by the non-empty children, so the single-condition
(unparenthesized) rule counts exactly the leaves plus the non-empty
children. -/
theorem C10_render_rules (m : ModelCls) (q : Q) :
    ((Q.mk q._fovs (q._children.filter Q.toBool) q._negate q._mode).to_sql m
      = q.to_sql m) ∧
    (q._fovs = [] → (∀ c ∈ q._children, c.is_empty) →
      q.to_sql m = if q._negate then "NOT (1)" else "1") ∧
    ((q._fovs.map (FOV.to_sql m) ++ Q.childrenSql m q._children).length
      = q.conditionCount) ∧
    (∀ s, q._negate = false →
      q._fovs.map (FOV.to_sql m) ++ Q.childrenSql m q._children = [s] →
      q.to_sql m = s) := by
  cases q with
  | mk fovs children negate mode =>
    refine ⟨?_, fun h1 h2 => ?_, ?_, fun s hneg hcond => ?_⟩
    · simp [Q.to_sql, Q._fovs, Q._children, Q._negate, Q._mode,
        Q.childrenSql_eq, List.filter_filter]
    · simp only [Q._fovs] at h1
      simp only [Q._children] at h2
      subst h1
      have hnil : children.filter Q.toBool = [] := by
        rw [List.filter_eq_nil_iff]
        intro c hc
        simp [Q.toBool, h2 c hc]
      simp [Q.to_sql, Q._negate, Q.childrenSql_eq, hnil]
    · simp [Q.conditionCount, Q._fovs, Q._children, Q.childrenSql_eq]
    · simp only [Q._negate] at hneg
      simp only [Q._fovs, Q._children] at hcond
      subst hneg
      simp [Q.to_sql, hcond]

/-- Witness for C10: a tree whose only children are empty renders `1`, and
one leaf plus an empty child renders as the bare leaf condition. -/
theorem C10_witness :
    (Q.mk [] [Q.init [], Q.init []] false Q.AND_MODE).to_sql sampleModel = "1" ∧
    (Q.mk [Q._build_fov "a" (.int 1)] [Q.init []] false Q.AND_MODE).to_sql
      sampleModel = "a = 1" := by
  constructor
  · simpa using (C10_render_rules sampleModel
      (Q.mk [] [Q.init [], Q.init []] false Q.AND_MODE)).2.1 rfl (by decide)
  · exact (C10_render_rules sampleModel
      (Q.mk [Q._build_fov "a" (.int 1)] [Q.init []] false Q.AND_MODE)).2.2.2
      "a = 1" rfl (by decide)

end ClickhouseOrm
